import Mathlib

/-!
Verification of the biotools pairwise-alignment renderer (src/main.rs).

The data model and all operations below are shallow embeddings of the Rust
source.  Sequences and rendered text are modelled as `List Char` (the inputs
the program cares about are ASCII, so byte indexing and char indexing agree).
The external pairwise-alignment engine (the rust-bio `Aligner`) is a
collaborator consumed as a black box; it is modelled as a function parameter
`align : List Char → List Char → Alignment` wherever the source calls it.
-/

set_option autoImplicit false

namespace Biotools

/-- `bio::alignment::AlignmentOperation`, exactly the constructors consumed by
`make_display_lines` in main.rs.  `Match`/`Subst` consume one base from each
sequence, `Ins` consumes one base from the first (query, x) sequence only,
`Del` one base from the second (reference, y) sequence only, and
`Xclip n`/`Yclip n` are runs of `n` unaligned bases of the query/reference. -/
inductive AlignmentOperation where
  | Match : AlignmentOperation
  | Subst : AlignmentOperation
  | Del : AlignmentOperation
  | Ins : AlignmentOperation
  | Xclip : Nat → AlignmentOperation
  | Yclip : Nat → AlignmentOperation
deriving DecidableEq

/-- The fields of `bio::alignment::Alignment` that main.rs reads: the score and
the start positions of the aligned region in x (query) and y (reference),
plus the operation trace.  (main.rs never reads `xend`/`yend`; it recomputes
end positions with running cursors.) -/
structure Alignment where
  score : Int
  xstart : Nat
  ystart : Nat
  operations : List AlignmentOperation
deriving DecidableEq

/-- `struct AlignmentDisplayLine` of main.rs (lines 153-161). -/
structure AlignmentDisplayLine where
  a_alignment : List Char
  b_alignment : List Char
  a_start : Nat
  a_end : Nat
  b_start : Nat
  b_end : Nat
  alignment_string : List Char
deriving DecidableEq

/-- `struct DisplayOptions` of main.rs (lines 103-108). -/
structure DisplayOptions where
  hide_coords : Bool
  try_rc : Bool
  line_width : Nat
  use_0_based_coords : Bool
deriving DecidableEq

/-- The mutable loop state of `make_display_lines` (main.rs lines 169-236):
the two running cursors and the three row strings being accumulated for the
current chunk. -/
structure ExpandState where
  a_index : Nat
  b_index : Nat
  a_alignment : List Char
  b_alignment : List Char
  alignment_string : List Char
deriving DecidableEq

/-- Fuel-driven worker for `chunks` (structural recursion so that the kernel
can evaluate it).  The fuel is always instantiated with the list length. -/
def chunksF {α : Type} (w : Nat) : Nat → List α → List (List α)
  | _, [] => []
  | 0, l => [l]
  | fuel + 1, l => l.take w :: chunksF w fuel (l.drop w)

/-- Rust's `slice::chunks(w)` as used in main.rs line 175: consecutive groups
of `w` elements, the last group possibly shorter.  (Rust panics when `w = 0`;
that case is unreachable in the claims, which assume a positive width.) -/
def chunks {α : Type} (w : Nat) (l : List α) : List (List α) :=
  chunksF w l.length l

/-- One iteration of the `for op in op_chunk` loop body of
`make_display_lines` (main.rs lines 180-236). -/
def expandOp (a_seq b_seq : List Char) (st : ExpandState) (op : AlignmentOperation) :
    ExpandState :=
  match op with
  | .Match =>
      { st with
        a_alignment := st.a_alignment ++ [a_seq.getD st.a_index '?'],
        a_index := st.a_index + 1,
        b_alignment := st.b_alignment ++ [b_seq.getD st.b_index '?'],
        b_index := st.b_index + 1,
        alignment_string := st.alignment_string ++ ['|'] }
  | .Del =>
      { st with
        a_alignment := st.a_alignment ++ ['-'],
        b_alignment := st.b_alignment ++ [b_seq.getD st.b_index '?'],
        b_index := st.b_index + 1,
        alignment_string := st.alignment_string ++ [' '] }
  | .Ins =>
      { st with
        a_alignment := st.a_alignment ++ [a_seq.getD st.a_index '?'],
        a_index := st.a_index + 1,
        b_alignment := st.b_alignment ++ ['-'],
        alignment_string := st.alignment_string ++ [' '] }
  | .Subst =>
      { st with
        a_alignment := st.a_alignment ++ [a_seq.getD st.a_index '?'],
        a_index := st.a_index + 1,
        b_alignment := st.b_alignment ++ [b_seq.getD st.b_index '?'],
        b_index := st.b_index + 1,
        alignment_string := st.alignment_string ++ ['.'] }
  | .Xclip n =>
      { st with
        a_alignment := st.a_alignment ++ List.replicate n '-',
        b_alignment := st.b_alignment ++ List.replicate n ' ',
        alignment_string := st.alignment_string ++ List.replicate n ' ' }
  | .Yclip n =>
      { st with
        a_alignment := st.a_alignment ++ List.replicate n ' ',
        b_alignment := st.b_alignment ++ List.replicate n '-',
        alignment_string := st.alignment_string ++ List.replicate n ' ' }

/-- The whole `for op in op_chunk` loop of main.rs over one chunk. -/
def expandChunk (a_seq b_seq : List Char) (st : ExpandState)
    (ops : List AlignmentOperation) : ExpandState :=
  ops.foldl (expandOp a_seq b_seq) st

/-- The per-chunk loop of `make_display_lines` (main.rs lines 175-249):
given the running cursors before a chunk, expand the chunk, emit one
`AlignmentDisplayLine` recording the consumed ranges, and continue with the
updated cursors.  Returns the lines and the final query cursor `a_index`. -/
def mkLinesGo (a_seq b_seq : List Char) (a0 b0 : Nat) :
    List (List AlignmentOperation) → List AlignmentDisplayLine × Nat
  | [] => ([], a0)
  | c :: cs =>
      let st := expandChunk a_seq b_seq
        { a_index := a0, b_index := b0, a_alignment := [], b_alignment := [],
          alignment_string := [] } c
      let rest := mkLinesGo a_seq b_seq st.a_index st.b_index cs
      ({ a_alignment := st.a_alignment, b_alignment := st.b_alignment,
         a_start := a0, a_end := st.a_index, b_start := b0, b_end := st.b_index,
         alignment_string := st.alignment_string } :: rest.1, rest.2)

/-- `make_display_lines` of main.rs (lines 163-251). -/
def make_display_lines (alignment : Alignment) (a_seq b_seq : List Char)
    (line_width : Nat) : List AlignmentDisplayLine × Nat :=
  mkLinesGo a_seq b_seq alignment.xstart alignment.ystart
    (chunks line_width alignment.operations)

/-- How far one operation advances the query cursor `a_index`
(1 for `Match`/`Subst`/`Ins`, 0 otherwise).  Measure used in the statements;
it does not appear in the source, which advances cursors inline. -/
def queryAdvance : AlignmentOperation → Nat
  | .Match => 1
  | .Subst => 1
  | .Ins => 1
  | _ => 0

/-- How far one operation advances the reference cursor `b_index`. -/
def refAdvance : AlignmentOperation → Nat
  | .Match => 1
  | .Subst => 1
  | .Del => 1
  | _ => 0

/-- Total query-cursor advance of a list of operations. -/
def queryConsumed : List AlignmentOperation → Nat
  | [] => 0
  | op :: ops => queryAdvance op + queryConsumed ops

/-- Total reference-cursor advance of a list of operations. -/
def refConsumed : List AlignmentOperation → Nat
  | [] => 0
  | op :: ops => refAdvance op + refConsumed ops

/-- `calculate_formatted_coordinates` of main.rs (lines 382-410), returning
`(a_start, a_end, b_start)`. -/
def calculate_formatted_coordinates (line : AlignmentDisplayLine)
    (final_a_end : Nat) (a_is_rc : Bool) (use_0_based_coordinates : Bool) :
    Nat × Nat × Nat :=
  let a_start := if a_is_rc then final_a_end - line.a_start else line.a_start
  let a_end := if a_is_rc then final_a_end - line.a_end + 1 else line.a_end
  let b_start := line.b_start
  if !use_0_based_coordinates then
    (if a_is_rc then a_start else a_start + 1, a_end, b_start + 1)
  else
    (a_start, if a_is_rc then a_end - 1 else a_end, b_start)

/-- One decimal digit character (only ever applied to values `< 10`). -/
def decDigit (n : Nat) : Char :=
  if n = 0 then '0' else if n = 1 then '1' else if n = 2 then '2'
  else if n = 3 then '3' else if n = 4 then '4' else if n = 5 then '5'
  else if n = 6 then '6' else if n = 7 then '7' else if n = 8 then '8'
  else '9'

/-- Fuel-driven worker for `natRepr` (structural recursion on the fuel). -/
def natReprAux : Nat → Nat → List Char
  | 0, _ => []
  | fuel + 1, n =>
      if n < 10 then [decDigit n]
      else natReprAux fuel (n / 10) ++ [decDigit (n % 10)]

/-- Decimal rendering of a `usize`, as Rust's `Display`/`to_string` emits it. -/
def natRepr (n : Nat) : List Char :=
  natReprAux (n + 1) n

/-- Rust's `format!("\x7b:>width$\x7d", s)`: pad `s` with spaces on the left up
to `width` columns (never truncates). -/
def padLeft (width : Nat) (s : List Char) : List Char :=
  List.replicate (width - s.length) ' ' ++ s

/-- Rust's `Vec::join(sep)` on a list of strings. -/
def joinWith {α : Type} (sep : List α) : List (List α) → List α
  | [] => []
  | [x] => x
  | x :: y :: xs => x ++ sep ++ joinWith sep (y :: xs)

/-- The width computation of `format_display_lines` (main.rs lines 331-341):
the decimal width of the largest displayed start coordinate (query and
reference starts, over all lines). -/
def display_width (display_lines : List AlignmentDisplayLine) (final_a_end : Nat)
    (a_is_rc use_0_based_coordinates : Bool) : Nat :=
  (natRepr (display_lines.foldl
    (fun m line =>
      max m (max (calculate_formatted_coordinates line final_a_end a_is_rc
                    use_0_based_coordinates).1
                 (calculate_formatted_coordinates line final_a_end a_is_rc
                    use_0_based_coordinates).2.2)) 0)).length

/-- The three rows emitted for one line when coordinates are shown
(main.rs lines 354-376): padded start, row, bare end for query and reference,
and a padding-only prefix for the symbol row.  The reference end is the raw
`line.b_end`; the query end comes from `calculate_formatted_coordinates`. -/
def render_block (width final_a_end : Nat) (a_is_rc use_0_based_coordinates : Bool)
    (line : AlignmentDisplayLine) : List Char :=
  let c := calculate_formatted_coordinates line final_a_end a_is_rc
    use_0_based_coordinates
  padLeft width (natRepr c.1) ++ ' ' :: line.a_alignment ++ ' ' :: natRepr c.2.1
    ++ '\n' :: (padLeft width [] ++ ' ' :: line.alignment_string)
    ++ '\n' :: (padLeft width (natRepr c.2.2) ++ ' ' :: line.b_alignment
                ++ ' ' :: natRepr line.b_end)

/-- The three rows emitted for one line when `hide_coords` is set
(main.rs lines 346-352). -/
def hide_block (line : AlignmentDisplayLine) : List Char :=
  line.a_alignment ++ '\n' :: line.alignment_string ++ '\n' :: line.b_alignment

/-- `format_display_lines` of main.rs (lines 318-380). -/
def format_display_lines (display_lines : List AlignmentDisplayLine)
    (hide_coords : Bool) (final_a_end : Nat) (a_is_rc use_0_based_coordinates : Bool) :
    List Char :=
  joinWith ['\n', '\n']
    (display_lines.map (fun line =>
      if hide_coords then hide_block line
      else render_block (display_width display_lines final_a_end a_is_rc
        use_0_based_coordinates) final_a_end a_is_rc use_0_based_coordinates line))

/-- Modelled from the spec: the complement transform of the external
reverse-complement collaborator (§6, glossary): each base is replaced by its
Watson-Crick complement, case preserved; characters without a complement are
left unchanged (the collaborator's lookup table maps unlisted bytes to
themselves, which is also what the repository's own
`test_reverse_complement_with_pairwise_cruft` exercises for `-`). -/
def complement (c : Char) : Char :=
  if c = 'A' then 'T' else if c = 'T' then 'A'
  else if c = 'C' then 'G' else if c = 'G' then 'C'
  else if c = 'a' then 't' else if c = 't' then 'a'
  else if c = 'c' then 'g' else if c = 'g' then 'c'
  else c

/-- Modelled from the spec: the external reverse-complement collaborator
(glossary: "a nucleotide sequence reversed end-to-end with each base
substituted by its Watson-Crick complement"). -/
def revcomp (s : List Char) : List Char :=
  (s.reverse).map complement

/-- `build_reverse_complement` of main.rs (lines 110-120): reverse the list of
fragments, reverse-complement each fragment, and join with a single space.
(The `String::from_utf8` failure branch cannot fire in the char-level model.) -/
def build_reverse_complement (seqs : List (List Char)) : List Char :=
  joinWith [' '] ((seqs.reverse).map revcomp)

/-- The message of the `bail!` at main.rs line 274. -/
def invalidCountMsg : List Char :=
  "Pairwise comparison needs exactly two sequences".data

/-- The rendering tail of `pairwise` (main.rs lines 307-315): expand the chosen
alignment into display lines and format them. -/
def render (alignment : Alignment) (a_seq b_seq : List Char)
    (opts : DisplayOptions) (a_is_rc : Bool) : List Char :=
  format_display_lines (make_display_lines alignment a_seq b_seq opts.line_width).1
    opts.hide_coords (make_display_lines alignment a_seq b_seq opts.line_width).2
    a_is_rc opts.use_0_based_coords

/-- `pairwise` of main.rs (lines 266-316).  The external aligner (mode, scoring
function and negated gap penalties already applied) is the black-box parameter
`align`, per the collaborator contract of spec §6. -/
def pairwise (align : List Char → List Char → Alignment)
    (seqs : List (List Char)) (opts : DisplayOptions) :
    Except (List Char) (List Char) :=
  if seqs.length ≠ 2 then .error invalidCountMsg
  else
    let a := seqs.getD 0 []
    let b := seqs.getD 1 []
    let alignment := align a b
    if opts.try_rc then
      let a_rc := revcomp a
      let alignment_rc := align a_rc b
      if alignment.score ≥ alignment_rc.score then .ok (render alignment a b opts false)
      else .ok (render alignment_rc a_rc b opts true)
    else .ok (render alignment a b opts false)

/-- Observable outcome of one process run: exit code, stdout, stderr. -/
structure ProcessResult where
  exit_code : Nat
  stdout : List Char
  stderr : List Char
deriving DecidableEq

/-- The single stderr line printed by `abort` (main.rs lines 411-414) for the
message built at main.rs line 500 (`format!("Error: \x7b:?\x7d", e)`). -/
def abortLine (msg : List Char) : List Char :=
  "biotools error: ".data ++ ("Error: ".data ++ msg) ++ ['\n']

/-- The tail of `main` (main.rs lines 495-501): print the command output and
exit 0, or print a diagnostic to stderr via `abort` and exit 47. -/
def finish (output : Except (List Char) (List Char)) : ProcessResult :=
  match output with
  | .ok text => { exit_code := 0, stdout := text ++ ['\n'], stderr := [] }
  | .error e => { exit_code := 47, stdout := [], stderr := abortLine e }

/-- The validity test of `confirm_valid_nucleic_acid` (main.rs line 135). -/
def isValidBase (c : Char) : Bool :=
  c = 'A' || c = 'C' || c = 'G' || c = 'T' || c = 'U' ||
  c = 'a' || c = 'c' || c = 'g' || c = 't' || c = 'u'

/-- The message of the error at main.rs line 136
(`Invalid/ambiguous base: '{c}' at position {i}`; `Char.ofNat 39` is the
single-quote character). -/
def invalidBaseMsg (c : Char) (i : Nat) : List Char :=
  "Invalid/ambiguous base: ".data ++ [Char.ofNat 39, c, Char.ofNat 39] ++
    " at position ".data ++ natRepr i

/-- The indexed loop of `confirm_valid_nucleic_acid` (main.rs lines 134-138). -/
def confirmGo (i : Nat) : List Char → Except (List Char) Unit
  | [] => .ok ()
  | c :: rest =>
      if isValidBase c then confirmGo (i + 1) rest
      else .error (invalidBaseMsg c i)

/-- `confirm_valid_nucleic_acid` of main.rs (lines 133-140). -/
def confirm_valid_nucleic_acid (seq : List Char) : Except (List Char) Unit :=
  confirmGo 0 seq

/-- The `.replace(" ", "").replace("-", "")` of main.rs line 143. -/
def strip_gaps (s : List Char) : List Char :=
  (s.filter (fun c => c ≠ ' ')).filter (fun c => c ≠ '-')

/-- Modelled from the spec: the external GC-content collaborator
(rust-bio `gc_content`; spec §8: ratio = gc_count / total over case-folded
G/C symbols), with `ℚ` standing in for the collaborator's `f32`. -/
def rustbio_gc_content (seq : List Char) : ℚ :=
  ((seq.countP (fun c => c = 'G' || c = 'g' || c = 'C' || c = 'c') : ℚ)) /
    ((seq.length : ℚ))

/-- `compute_gc_content` of main.rs (lines 142-146). -/
def compute_gc_content (seqs : List (List Char)) : Except (List Char) ℚ :=
  let seq := strip_gaps seqs.flatten
  match confirm_valid_nucleic_acid seq with
  | .error e => .error e
  | .ok _ => .ok (rustbio_gc_content seq)

/-- The continuity relation between consecutive display lines: the next line
starts exactly where the previous one ended, in both sequences. -/
def contLine (x y : AlignmentDisplayLine) : Prop :=
  y.a_start = x.a_end ∧ y.b_start = x.b_end

/-- Stated from the spec's words for comparison with
`calculate_formatted_coordinates` (claim C3): the displayed query coordinates
of a reverse-complemented line, inverted through the total original query
length `L`: `display_start = L - raw_start` and `display_end = L - raw_end + 1`,
with a further `-1` on the end when zero-based coordinates are requested. -/
def spec_rc_display_coords (L raw_start raw_end : Nat) (zero_based : Bool) :
    Nat × Nat :=
  (L - raw_start, if zero_based then L - raw_end + 1 - 1 else L - raw_end + 1)

/-- Stated from the spec's words for comparison with `display_width`
(claim C7): the maximum digit-width among all displayed start coordinates
(query and reference, across all lines).  The base `1` is the digit-width of
the code's initial accumulator `0`; every digit-width is at least 1, so on a
non-empty line list this is exactly the maximum. -/
def spec_max_start_digit_width (display_lines : List AlignmentDisplayLine)
    (final_a_end : Nat) (a_is_rc use_0_based_coordinates : Bool) : Nat :=
  display_lines.foldl
    (fun m line =>
      max m (max (natRepr (calculate_formatted_coordinates line final_a_end a_is_rc
                    use_0_based_coordinates).1).length
                 (natRepr (calculate_formatted_coordinates line final_a_end a_is_rc
                    use_0_based_coordinates).2.2).length)) 1

/-- Modelled from the spec's words (claim C10): the first character outside the
valid alphabet, together with its position. -/
def firstInvalid : List Char → Option (Char × Nat)
  | [] => none
  | c :: rest =>
      if isValidBase c then (firstInvalid rest).map (fun p => (p.1, p.2 + 1))
      else some (c, 0)

/-! ### Concrete fixtures used to instantiate the theorems

Each `cNAlign` is a concrete instance of the black-box aligner collaborator,
returning a fixed `Alignment` per orientation; the traces are well-formed for
the sequences they are used with (cursered characters exist, boundaries are
consistent), as the spec's collaborator contract guarantees. -/

/-- Options: coordinates shown, try the reverse complement, 1-based. -/
def c1Opts : DisplayOptions :=
  { hide_coords := false, try_rc := true, line_width := 60,
    use_0_based_coords := false }

/-- Forward alignment of the C1 fixture (query `AA` vs reference `TT`). -/
def c1AlnF : Alignment := { score := 0, xstart := 0, ystart := 0, operations := [] }

/-- Reverse-complement alignment of the C1 fixture (`TT` vs `TT`, two matches). -/
def c1AlnR : Alignment :=
  { score := 2, xstart := 0, ystart := 0, operations := [.Match, .Match] }

/-- C1 aligner stub: scores the reverse-complemented query strictly higher. -/
def c1Align (q : List Char) (_ : List Char) : Alignment :=
  if q = ("TT".data) then c1AlnR else c1AlnF

/-- The single display line produced by the C1 fixture. -/
def c1Line : AlignmentDisplayLine :=
  { a_alignment := "TT".data, b_alignment := "TT".data, a_start := 0, a_end := 2,
    b_start := 0, b_end := 2, alignment_string := "||".data }

/-- Options for the C2 witness: coordinates shown, try-rc, 0-based. -/
def c2Opts : DisplayOptions :=
  { hide_coords := false, try_rc := true, line_width := 60,
    use_0_based_coords := true }

/-- Forward alignment of the C2 tie fixture: score 1. -/
def c2AlnF : Alignment :=
  { score := 1, xstart := 0, ystart := 0, operations := [.Match, .Match] }

/-- Reverse-complement alignment of the C2 tie fixture: also score 1. -/
def c2AlnR : Alignment :=
  { score := 1, xstart := 0, ystart := 0, operations := [.Subst, .Match] }

/-- C2 aligner stub: forward and reverse-complement scores are exactly equal. -/
def c2Align (q : List Char) (_ : List Char) : Alignment :=
  if q = ("TT".data) then c2AlnR else c2AlnF

/-- Options for the C3 fixture: coordinates shown, try-rc, 1-based. -/
def c3Opts : DisplayOptions :=
  { hide_coords := false, try_rc := true, line_width := 60,
    use_0_based_coords := false }

/-- Forward alignment of the C3 fixture (query `AAA`, reference `AT`). -/
def c3AlnF : Alignment := { score := 0, xstart := 0, ystart := 0, operations := [] }

/-- Reverse-complement alignment of the C3 fixture: a local-style trace over
the reverse-complemented query `TTT` that consumes only its middle base
(`xstart = 1`, one `Match`), so the final query cursor is 2 while the
original query length is 3. -/
def c3AlnR : Alignment := { score := 1, xstart := 1, ystart := 1, operations := [.Match] }

/-- C3 aligner stub: the reverse-complement orientation wins strictly. -/
def c3Align (q : List Char) (_ : List Char) : Alignment :=
  if q = ("TTT".data) then c3AlnR else c3AlnF

/-- The single display line produced by the C3 fixture. -/
def c3Line : AlignmentDisplayLine :=
  { a_alignment := "T".data, b_alignment := "T".data, a_start := 1, a_end := 2,
    b_start := 1, b_end := 2, alignment_string := "|".data }

/-- A small three-operation alignment used to instantiate the chunking claim. -/
def c6Aln : Alignment :=
  { score := 1, xstart := 0, ystart := 0, operations := [.Match, .Del, .Ins] }

/-- First display line of the C7 padding fixture (start coordinates 3 and 2). -/
def c7Line1 : AlignmentDisplayLine :=
  { a_alignment := "GT".data, b_alignment := "GT".data, a_start := 3, a_end := 5,
    b_start := 2, b_end := 4, alignment_string := "||".data }

/-- Second display line of the C7 padding fixture (start coordinates 10 and 9,
forcing a two-column width). -/
def c7Line2 : AlignmentDisplayLine :=
  { a_alignment := "AC".data, b_alignment := "AC".data, a_start := 10, a_end := 12,
    b_start := 9, b_end := 11, alignment_string := "||".data }

/-- A trivial aligner stub for the error-path witness. -/
def c8Align (_ : List Char) (_ : List Char) : Alignment :=
  { score := 0, xstart := 0, ystart := 0, operations := [] }

/-! ### Lemmas about `chunks` -/

theorem chunksF_congr {α : Type} (w : Nat) (hw : 0 < w) :
    ∀ f1 f2 (l : List α), l.length ≤ f1 → l.length ≤ f2 →
      chunksF w f1 l = chunksF w f2 l := by
  intro f1
  induction f1 with
  | zero =>
      intro f2 l h1 _
      have hl : l = [] := List.eq_nil_of_length_eq_zero (Nat.le_zero.mp h1)
      subst hl
      cases f2 <;> rfl
  | succ g ih =>
      intro f2 l h1 h2
      cases l with
      | nil => cases f2 <;> rfl
      | cons x xs =>
          cases f2 with
          | zero => simp at h2
          | succ g2 =>
              show (x :: xs).take w :: chunksF w g ((x :: xs).drop w)
                  = (x :: xs).take w :: chunksF w g2 ((x :: xs).drop w)
              have hlen : ((x :: xs).drop w).length ≤ g := by
                simp only [List.length_drop, List.length_cons]
                simp only [List.length_cons] at h1
                omega
              have hlen2 : ((x :: xs).drop w).length ≤ g2 := by
                simp only [List.length_drop, List.length_cons]
                simp only [List.length_cons] at h2
                omega
              rw [ih g2 _ hlen hlen2]

theorem chunks_nil {α : Type} (w : Nat) : chunks w ([] : List α) = [] := rfl

theorem chunks_cons {α : Type} (w : Nat) (hw : 0 < w) (l : List α) (hl : l ≠ []) :
    chunks w l = l.take w :: chunks w (l.drop w) := by
  cases l with
  | nil => exact absurd rfl hl
  | cons x xs =>
      show chunksF w (xs.length + 1) (x :: xs)
        = (x :: xs).take w :: chunksF w ((x :: xs).drop w).length ((x :: xs).drop w)
      have step : chunksF w (xs.length + 1) (x :: xs)
          = (x :: xs).take w :: chunksF w xs.length ((x :: xs).drop w) := rfl
      rw [step]
      congr 1
      apply chunksF_congr w hw
      · simp only [List.length_drop, List.length_cons]; omega
      · exact le_rfl

theorem chunks_ne_nil {α : Type} (w : Nat) (hw : 0 < w) (l : List α) (hl : l ≠ []) :
    chunks w l ≠ [] := by
  rw [chunks_cons w hw l hl]
  exact List.cons_ne_nil _ _

theorem chunks_flatten {α : Type} (w : Nat) (hw : 0 < w) (l : List α) :
    (chunks w l).flatten = l := by
  have H : ∀ n (l : List α), l.length ≤ n → (chunks w l).flatten = l := by
    intro n
    induction n with
    | zero =>
        intro l h
        have hl : l = [] := List.eq_nil_of_length_eq_zero (Nat.le_zero.mp h)
        subst hl; rfl
    | succ n ih =>
        intro l h
        by_cases hl : l = []
        · subst hl; rfl
        · rw [chunks_cons w hw l hl]
          have hdrop : (l.drop w).length ≤ n := by
            simp only [List.length_drop]
            have : l.length ≠ 0 := fun h0 => hl (List.eq_nil_of_length_eq_zero h0)
            omega
          simp only [List.flatten_cons, ih (l.drop w) hdrop]
          exact List.take_append_drop w l
  exact H l.length l le_rfl

theorem chunks_length_le {α : Type} (w : Nat) (hw : 0 < w) (l : List α) :
    ∀ g ∈ chunks w l, g.length ≤ w := by
  have H : ∀ n (l : List α), l.length ≤ n → ∀ g ∈ chunks w l, g.length ≤ w := by
    intro n
    induction n with
    | zero =>
        intro l h g hg
        have hl : l = [] := List.eq_nil_of_length_eq_zero (Nat.le_zero.mp h)
        subst hl; simp [chunks_nil] at hg
    | succ n ih =>
        intro l h g hg
        by_cases hl : l = []
        · subst hl; simp [chunks_nil] at hg
        · rw [chunks_cons w hw l hl] at hg
          rcases List.mem_cons.mp hg with hg | hg
          · subst hg
            simp only [List.length_take]
            exact Nat.min_le_left w l.length
          · have hdrop : (l.drop w).length ≤ n := by
              simp only [List.length_drop]
              have : l.length ≠ 0 := fun h0 => hl (List.eq_nil_of_length_eq_zero h0)
              omega
            exact ih (l.drop w) hdrop g hg
  exact H l.length l le_rfl

theorem chunks_dropLast_length {α : Type} (w : Nat) (hw : 0 < w) (l : List α) :
    ∀ g ∈ (chunks w l).dropLast, g.length = w := by
  have H : ∀ n (l : List α), l.length ≤ n → ∀ g ∈ (chunks w l).dropLast, g.length = w := by
    intro n
    induction n with
    | zero =>
        intro l h g hg
        have hl : l = [] := List.eq_nil_of_length_eq_zero (Nat.le_zero.mp h)
        subst hl; simp [chunks_nil] at hg
    | succ n ih =>
        intro l h g hg
        by_cases hl : l = []
        · subst hl; simp [chunks_nil] at hg
        · rw [chunks_cons w hw l hl] at hg
          by_cases hr : l.drop w = []
          · rw [hr, chunks_nil] at hg
            simp at hg
          · have hcons := chunks_cons w hw (l.drop w) hr
            have hdrop : (l.drop w).length ≤ n := by
              simp only [List.length_drop]
              have : l.length ≠ 0 := fun h0 => hl (List.eq_nil_of_length_eq_zero h0)
              omega
            rw [hcons] at hg
            have hg' : g = l.take w ∨
                g ∈ ((l.drop w).take w :: chunks w ((l.drop w).drop w)).dropLast := by
              cases List.mem_cons.mp
                  (show g ∈ l.take w ::
                    ((l.drop w).take w :: chunks w ((l.drop w).drop w)).dropLast from hg) with
              | inl h1 => exact Or.inl h1
              | inr h2 => exact Or.inr h2
            rcases hg' with hg' | hg'
            · subst hg'
              have hwlt : w < l.length := by
                have : l.length - w ≠ 0 := by
                  intro h0
                  exact hr (List.eq_nil_of_length_eq_zero (by simpa using h0))
                omega
              simp [List.length_take]
              omega
            · rw [← hcons] at hg'
              exact ih (l.drop w) hdrop g hg'
  exact H l.length l le_rfl

/-! ### Lemmas about cursor bookkeeping in the trace expander -/

theorem expandOp_a_index (a_seq b_seq : List Char) (st : ExpandState)
    (op : AlignmentOperation) :
    (expandOp a_seq b_seq st op).a_index = st.a_index + queryAdvance op := by
  cases op <;> rfl

theorem expandOp_b_index (a_seq b_seq : List Char) (st : ExpandState)
    (op : AlignmentOperation) :
    (expandOp a_seq b_seq st op).b_index = st.b_index + refAdvance op := by
  cases op <;> rfl

theorem expandChunk_a_index (a_seq b_seq : List Char) :
    ∀ (ops : List AlignmentOperation) (st : ExpandState),
      (expandChunk a_seq b_seq st ops).a_index = st.a_index + queryConsumed ops := by
  intro ops
  induction ops with
  | nil => intro st; rfl
  | cons op ops ih =>
      intro st
      show (expandChunk a_seq b_seq (expandOp a_seq b_seq st op) ops).a_index = _
      rw [ih, expandOp_a_index]
      simp [queryConsumed]
      omega

theorem expandChunk_b_index (a_seq b_seq : List Char) :
    ∀ (ops : List AlignmentOperation) (st : ExpandState),
      (expandChunk a_seq b_seq st ops).b_index = st.b_index + refConsumed ops := by
  intro ops
  induction ops with
  | nil => intro st; rfl
  | cons op ops ih =>
      intro st
      show (expandChunk a_seq b_seq (expandOp a_seq b_seq st op) ops).b_index = _
      rw [ih, expandOp_b_index]
      simp [refConsumed]
      omega

theorem queryConsumed_append (l1 l2 : List AlignmentOperation) :
    queryConsumed (l1 ++ l2) = queryConsumed l1 + queryConsumed l2 := by
  induction l1 with
  | nil => simp [queryConsumed]
  | cons op ops ih => simp [queryConsumed, ih]; omega

/-! ### Lemmas about `mkLinesGo` -/

theorem mkLinesGo_length (a_seq b_seq : List Char) :
    ∀ (cs : List (List AlignmentOperation)) (a0 b0 : Nat),
      (mkLinesGo a_seq b_seq a0 b0 cs).1.length = cs.length := by
  intro cs
  induction cs with
  | nil => intro a0 b0; rfl
  | cons c cs ih =>
      intro a0 b0
      simp only [mkLinesGo, List.length_cons]
      rw [ih]

theorem mkLinesGo_fin (a_seq b_seq : List Char) :
    ∀ (cs : List (List AlignmentOperation)) (a0 b0 : Nat),
      (mkLinesGo a_seq b_seq a0 b0 cs).2 = a0 + queryConsumed cs.flatten := by
  intro cs
  induction cs with
  | nil => intro a0 b0; simp [mkLinesGo, queryConsumed]
  | cons c cs ih =>
      intro a0 b0
      simp only [mkLinesGo]
      rw [ih, expandChunk_a_index]
      simp only [List.flatten_cons, queryConsumed_append]
      omega

theorem mkLinesGo_head_start (a_seq b_seq : List Char)
    (cs : List (List AlignmentOperation)) (a0 b0 : Nat) (x : AlignmentDisplayLine)
    (hx : (mkLinesGo a_seq b_seq a0 b0 cs).1.head? = some x) :
    x.a_start = a0 ∧ x.b_start = b0 := by
  cases cs with
  | nil => simp [mkLinesGo] at hx
  | cons c cs =>
      simp only [mkLinesGo, List.head?_cons, Option.some.injEq] at hx
      subst hx
      exact ⟨rfl, rfl⟩

theorem mkLinesGo_chain (a_seq b_seq : List Char) :
    ∀ (cs : List (List AlignmentOperation)) (a0 b0 : Nat),
      List.Chain' contLine (mkLinesGo a_seq b_seq a0 b0 cs).1 := by
  intro cs
  induction cs with
  | nil => intro a0 b0; simp [mkLinesGo]
  | cons c cs ih =>
      intro a0 b0
      simp only [mkLinesGo]
      rw [List.chain'_cons']
      constructor
      · intro y hy
        have := mkLinesGo_head_start a_seq b_seq cs _ _ y (Option.mem_def.mp hy)
        exact ⟨this.1, this.2⟩
      · exact ih _ _

theorem mkLinesGo_bounds (a_seq b_seq : List Char) :
    ∀ (cs : List (List AlignmentOperation)) (a0 b0 : Nat)
      (l : AlignmentDisplayLine), l ∈ (mkLinesGo a_seq b_seq a0 b0 cs).1 →
      l.a_start ≤ l.a_end ∧ l.a_end ≤ (mkLinesGo a_seq b_seq a0 b0 cs).2 := by
  intro cs
  induction cs with
  | nil => intro a0 b0 l hl; simp [mkLinesGo] at hl
  | cons c cs ih =>
      intro a0 b0 l hl
      simp only [mkLinesGo, List.mem_cons] at hl
      rcases hl with hl | hl
      · subst hl
        constructor
        · show a0 ≤ (expandChunk a_seq b_seq _ c).a_index
          rw [expandChunk_a_index]
          exact Nat.le_add_right _ _
        · show (expandChunk a_seq b_seq _ c).a_index ≤ (mkLinesGo a_seq b_seq _ _ cs).2
          rw [mkLinesGo_fin]
          exact Nat.le_add_right _ _
      · exact ih _ _ l hl

/-! ### Lemmas about decimal rendering -/

theorem natReprAux_congr :
    ∀ f1 f2 n, n < f1 → n < f2 → natReprAux f1 n = natReprAux f2 n := by
  intro f1
  induction f1 with
  | zero => intro f2 n h1 _; omega
  | succ g ih =>
      intro f2 n h1 h2
      cases f2 with
      | zero => omega
      | succ g2 =>
          by_cases hn : n < 10
          · simp [natReprAux, hn]
          · simp only [natReprAux, if_neg hn]
            have hdivn : n / 10 < n := Nat.div_lt_self (by omega) (by omega)
            rw [ih g2 (n / 10) (by omega) (by omega)]

theorem natRepr_lt_ten (n : Nat) (h : n < 10) : natRepr n = [decDigit n] := by
  simp [natRepr, natReprAux, h]

theorem natRepr_ge_ten (n : Nat) (h : 10 ≤ n) :
    natRepr n = natRepr (n / 10) ++ [decDigit (n % 10)] := by
  have h1 : natRepr n = natReprAux n (n / 10) ++ [decDigit (n % 10)] := by
    simp [natRepr, natReprAux, Nat.not_lt.mpr h]
  rw [h1]
  have hdivn : n / 10 < n := Nat.div_lt_self (by omega) (by omega)
  rw [natReprAux_congr n (n / 10 + 1) (n / 10) (by omega) (by omega)]
  rfl

theorem natRepr_length_pos (n : Nat) : 0 < (natRepr n).length := by
  by_cases h : n < 10
  · rw [natRepr_lt_ten n h]; simp
  · rw [natRepr_ge_ten n (Nat.not_lt.mp h)]; simp

theorem natRepr_length_mono {m n : Nat} (hmn : m ≤ n) :
    (natRepr m).length ≤ (natRepr n).length := by
  have H : ∀ n m, m ≤ n → (natRepr m).length ≤ (natRepr n).length := by
    intro n
    induction n using Nat.strong_induction_on with
    | _ n ih =>
        intro m hm
        by_cases hn : n < 10
        · rw [natRepr_lt_ten m (by omega), natRepr_lt_ten n hn]
          exact le_rfl
        · rw [natRepr_ge_ten n (Nat.not_lt.mp hn)]
          by_cases hm10 : m < 10
          · rw [natRepr_lt_ten m hm10]
            have := natRepr_length_pos (n / 10)
            simp only [List.length_append, List.length_singleton]
            omega
          · rw [natRepr_ge_ten m (Nat.not_lt.mp hm10)]
            simp only [List.length_append, List.length_singleton]
            have hlt : n / 10 < n := Nat.div_lt_self (by omega) (by omega)
            have := ih (n / 10) hlt (m / 10) (Nat.div_le_div_right hm)
            omega
  exact H n m hmn

theorem natRepr_length_max (x y : Nat) :
    (natRepr (max x y)).length = max (natRepr x).length (natRepr y).length := by
  rcases le_total x y with h | h
  · rw [max_eq_right h, max_eq_right (natRepr_length_mono h)]
  · rw [max_eq_left h, max_eq_left (natRepr_length_mono h)]

theorem foldl_max_natRepr_length (c1 c2 : AlignmentDisplayLine → Nat) :
    ∀ (ls : List AlignmentDisplayLine) (acc : Nat),
      (natRepr (ls.foldl (fun m line => max m (max (c1 line) (c2 line))) acc)).length
        = ls.foldl (fun m line => max m (max (natRepr (c1 line)).length
            (natRepr (c2 line)).length)) (natRepr acc).length := by
  intro ls
  induction ls with
  | nil => intro acc; rfl
  | cons l ls ih =>
      intro acc
      simp only [List.foldl_cons]
      rw [ih]
      congr 1
      rw [natRepr_length_max, natRepr_length_max]

theorem display_width_eq_spec (display_lines : List AlignmentDisplayLine)
    (final_a_end : Nat) (a_is_rc use_0 : Bool) :
    display_width display_lines final_a_end a_is_rc use_0
      = spec_max_start_digit_width display_lines final_a_end a_is_rc use_0 := by
  unfold display_width spec_max_start_digit_width
  exact foldl_max_natRepr_length
    (fun line => (calculate_formatted_coordinates line final_a_end a_is_rc use_0).1)
    (fun line => (calculate_formatted_coordinates line final_a_end a_is_rc use_0).2.2)
    display_lines 0

theorem foldl_max_le_acc (g : AlignmentDisplayLine → Nat) :
    ∀ (ls : List AlignmentDisplayLine) (acc : Nat),
      acc ≤ ls.foldl (fun m l => max m (g l)) acc := by
  intro ls
  induction ls with
  | nil => intro acc; exact le_rfl
  | cons l ls ih =>
      intro acc
      simp only [List.foldl_cons]
      exact le_trans (Nat.le_max_left acc (g l)) (ih _)

theorem mem_le_foldl_max (g : AlignmentDisplayLine → Nat) :
    ∀ (ls : List AlignmentDisplayLine) (acc : Nat) (l : AlignmentDisplayLine),
      l ∈ ls → g l ≤ ls.foldl (fun m l => max m (g l)) acc := by
  intro ls
  induction ls with
  | nil => intro acc l hl; simp at hl
  | cons x xs ih =>
      intro acc l hl
      simp only [List.foldl_cons]
      rcases List.mem_cons.mp hl with hl | hl
      · subst hl
        exact le_trans (Nat.le_max_right acc (g l)) (foldl_max_le_acc g xs _)
      · exact ih _ l hl

/-! ### Lemmas about padding, joining and character provenance -/

theorem padLeft_length (w : Nat) (s : List Char) (h : s.length ≤ w) :
    (padLeft w s).length = w := by
  simp only [padLeft, List.length_append, List.length_replicate]
  omega

theorem padLeft_suffix (w : Nat) (s : List Char) : s <:+ padLeft w s :=
  ⟨List.replicate (w - s.length) ' ', rfl⟩

theorem decDigit_ne_R (d : Nat) : decDigit d ≠ 'R' := by
  unfold decDigit
  repeat' split
  all_goals decide

theorem mem_natReprAux :
    ∀ fuel n c, c ∈ natReprAux fuel n → ∃ d, c = decDigit d := by
  intro fuel
  induction fuel with
  | zero => intro n c hc; simp [natReprAux] at hc
  | succ g ih =>
      intro n c hc
      by_cases hn : n < 10
      · simp [natReprAux, hn] at hc
        exact ⟨n, hc⟩
      · simp only [natReprAux, if_neg hn, List.mem_append, List.mem_singleton] at hc
        rcases hc with hc | hc
        · exact ih _ _ hc
        · exact ⟨n % 10, hc⟩

theorem not_R_natRepr (n : Nat) : 'R' ∉ natRepr n := by
  intro h
  obtain ⟨d, hd⟩ := mem_natReprAux (n + 1) n 'R' h
  exact decDigit_ne_R d hd.symm

theorem not_R_padLeft (w : Nat) (s : List Char) (hs : 'R' ∉ s) :
    'R' ∉ padLeft w s := by
  simp only [padLeft, List.mem_append, List.mem_replicate]
  intro h
  rcases h with ⟨_, h⟩ | h
  · exact absurd h (by decide)
  · exact hs h

theorem not_R_render_block (width final_a_end : Nat) (a_is_rc use_0 : Bool)
    (line : AlignmentDisplayLine)
    (ha : 'R' ∉ line.a_alignment) (hb : 'R' ∉ line.b_alignment)
    (hs : 'R' ∉ line.alignment_string) :
    'R' ∉ render_block width final_a_end a_is_rc use_0 line := by
  intro h
  simp only [render_block, List.mem_append, List.mem_cons] at h
  casesm* _ ∨ _
  all_goals rename_i h
  all_goals first
    | exact absurd h (by decide)
    | exact ha h
    | exact hb h
    | exact hs h
    | exact not_R_natRepr _ h
    | exact not_R_padLeft _ _ (not_R_natRepr _) h
    | exact not_R_padLeft _ _ (List.not_mem_nil _) h

theorem not_R_hide_block (line : AlignmentDisplayLine)
    (ha : 'R' ∉ line.a_alignment) (hb : 'R' ∉ line.b_alignment)
    (hs : 'R' ∉ line.alignment_string) :
    'R' ∉ hide_block line := by
  intro h
  simp only [hide_block, List.mem_append, List.mem_cons] at h
  casesm* _ ∨ _
  all_goals rename_i h
  all_goals first
    | exact absurd h (by decide)
    | exact ha h
    | exact hb h
    | exact hs h

theorem not_R_joinWith (sep : List Char) (hsep : 'R' ∉ sep) :
    ∀ (bs : List (List Char)), (∀ b ∈ bs, 'R' ∉ b) → 'R' ∉ joinWith sep bs := by
  intro bs
  induction bs with
  | nil => intro _ h; simp [joinWith] at h
  | cons x xs ih =>
      cases xs with
      | nil =>
          intro hb h
          exact hb x (List.mem_cons_self x []) h
      | cons y ys =>
          intro hb h
          simp only [joinWith, List.mem_append] at h
          rcases h with (h | h) | h
          · exact hb x (List.mem_cons_self _ _) h
          · exact hsep h
          · exact ih (fun b hbmem => hb b (List.mem_cons_of_mem x hbmem)) h

theorem not_R_format (display_lines : List AlignmentDisplayLine)
    (hide_coords : Bool) (final_a_end : Nat) (a_is_rc use_0 : Bool)
    (h : ∀ l ∈ display_lines,
      'R' ∉ l.a_alignment ∧ 'R' ∉ l.b_alignment ∧ 'R' ∉ l.alignment_string) :
    'R' ∉ format_display_lines display_lines hide_coords final_a_end a_is_rc use_0 := by
  unfold format_display_lines
  apply not_R_joinWith _ (by decide)
  intro b hb
  obtain ⟨l, hl, rfl⟩ := List.mem_map.mp hb
  obtain ⟨ha, hbm, hs⟩ := h l hl
  by_cases hc : hide_coords
  · simp only [hc, if_true]
    exact not_R_hide_block l ha hbm hs
  · simp only [hc, if_false]
    exact not_R_render_block _ _ _ _ l ha hbm hs

/-! ### Validation characterization -/

theorem confirmGo_eq_firstInvalid :
    ∀ (s : List Char) (i : Nat),
      confirmGo i s =
        match firstInvalid s with
        | none => .ok ()
        | some (c, j) => .error (invalidBaseMsg c (i + j)) := by
  intro s
  induction s with
  | nil => intro i; rfl
  | cons c rest ih =>
      intro i
      by_cases hc : isValidBase c
      · simp only [confirmGo, hc, if_true, firstInvalid]
        rw [ih (i + 1)]
        cases hfi : firstInvalid rest with
        | none => rfl
        | some p =>
            obtain ⟨d, j⟩ := p
            show Except.error (invalidBaseMsg d (i + 1 + j))
              = Except.error (invalidBaseMsg d (i + (j + 1)))
            have h1 : i + 1 + j = i + (j + 1) := by omega
            rw [h1]
      · simp only [confirmGo, hc, if_false, firstInvalid, Bool.false_eq_true]
        rfl

/-! ### Claim theorems -/

/-- C4: the trace expander emits, per operation: `Match` — one literal
character from each sequence (the character at the cursor, case preserved)
and a bar in the symbol row; `Subst` (mismatch) — the two literal characters
and a dot; `Ins` (insertion) — the literal query character, a dash on the
reference row and a space in the symbol row; `Del` (deletion) — a dash on
the query row, the literal reference character and a space in the symbol
row; `Xclip n` (query clip) — `n` dashes on the query row and `n` blanks on
the symbol and reference rows; `Yclip n` (reference clip) — `n` blanks on
the query and symbol rows and `n` dashes on the reference row.  The final
conjunct shows the cursors advance exactly by the number of consumed bases
over any run of operations, so clips never advance either cursor. -/
theorem C4_trace_expander (a_seq b_seq : List Char) :
    (∀ st : ExpandState, expandOp a_seq b_seq st .Match =
      { st with
        a_alignment := st.a_alignment ++ [a_seq.getD st.a_index '?'],
        a_index := st.a_index + 1,
        b_alignment := st.b_alignment ++ [b_seq.getD st.b_index '?'],
        b_index := st.b_index + 1,
        alignment_string := st.alignment_string ++ ['|'] }) ∧
    (∀ st : ExpandState, expandOp a_seq b_seq st .Subst =
      { st with
        a_alignment := st.a_alignment ++ [a_seq.getD st.a_index '?'],
        a_index := st.a_index + 1,
        b_alignment := st.b_alignment ++ [b_seq.getD st.b_index '?'],
        b_index := st.b_index + 1,
        alignment_string := st.alignment_string ++ ['.'] }) ∧
    (∀ st : ExpandState, expandOp a_seq b_seq st .Ins =
      { st with
        a_alignment := st.a_alignment ++ [a_seq.getD st.a_index '?'],
        a_index := st.a_index + 1,
        b_alignment := st.b_alignment ++ ['-'],
        alignment_string := st.alignment_string ++ [' '] }) ∧
    (∀ st : ExpandState, expandOp a_seq b_seq st .Del =
      { st with
        a_alignment := st.a_alignment ++ ['-'],
        b_alignment := st.b_alignment ++ [b_seq.getD st.b_index '?'],
        b_index := st.b_index + 1,
        alignment_string := st.alignment_string ++ [' '] }) ∧
    (∀ (st : ExpandState) (n : Nat), expandOp a_seq b_seq st (.Xclip n) =
      { st with
        a_alignment := st.a_alignment ++ List.replicate n '-',
        b_alignment := st.b_alignment ++ List.replicate n ' ',
        alignment_string := st.alignment_string ++ List.replicate n ' ' }) ∧
    (∀ (st : ExpandState) (n : Nat), expandOp a_seq b_seq st (.Yclip n) =
      { st with
        a_alignment := st.a_alignment ++ List.replicate n ' ',
        b_alignment := st.b_alignment ++ List.replicate n '-',
        alignment_string := st.alignment_string ++ List.replicate n ' ' }) ∧
    (∀ (ops : List AlignmentOperation) (st : ExpandState),
      (expandChunk a_seq b_seq st ops).a_index = st.a_index + queryConsumed ops ∧
      (expandChunk a_seq b_seq st ops).b_index = st.b_index + refConsumed ops) :=
  ⟨fun _ => rfl, fun _ => rfl, fun _ => rfl, fun _ => rfl,
   fun _ _ => rfl, fun _ _ => rfl,
   fun ops st => ⟨expandChunk_a_index a_seq b_seq ops st,
     expandChunk_b_index a_seq b_seq ops st⟩⟩

/-- C5: in the display lines produced for any trace and any chunking, each
line records exactly where the previous one stopped: the query start of line
k+1 equals the query end of line k, and likewise for the reference — no gaps
and no overlaps in the consumed ranges. -/
theorem C5_line_continuity (alignment : Alignment) (a_seq b_seq : List Char)
    (line_width : Nat) :
    List.Chain' contLine (make_display_lines alignment a_seq b_seq line_width).1 :=
  mkLinesGo_chain a_seq b_seq _ alignment.xstart alignment.ystart

/-- C6: for every trace and positive line width, the operation sequence is
partitioned into consecutive groups of at most `line_width` operations each
(a clip run being a single operation), every group except possibly the last
has exactly `line_width` operations, concatenating the groups restores the
original operation sequence, and `make_display_lines` emits exactly one
display line per group. -/
theorem C6_chunking (alignment : Alignment) (a_seq b_seq : List Char)
    (line_width : Nat) (hw : 0 < line_width) :
    (chunks line_width alignment.operations).flatten = alignment.operations ∧
    (∀ g ∈ chunks line_width alignment.operations, g.length ≤ line_width) ∧
    (∀ g ∈ (chunks line_width alignment.operations).dropLast,
      g.length = line_width) ∧
    (make_display_lines alignment a_seq b_seq line_width).1.length
      = (chunks line_width alignment.operations).length :=
  ⟨chunks_flatten line_width hw alignment.operations,
   chunks_length_le line_width hw alignment.operations,
   chunks_dropLast_length line_width hw alignment.operations,
   mkLinesGo_length a_seq b_seq _ alignment.xstart alignment.ystart⟩

/-- Witness for C6 at a concrete three-operation trace and width 2. -/
theorem C6_chunking_witness :
    0 < 2 ∧
    ((chunks 2 c6Aln.operations).flatten = c6Aln.operations ∧
     (∀ g ∈ chunks 2 c6Aln.operations, g.length ≤ 2) ∧
     (∀ g ∈ (chunks 2 c6Aln.operations).dropLast, g.length = 2) ∧
     (make_display_lines c6Aln ("AGT".data) ("AT".data) 2).1.length
       = (chunks 2 c6Aln.operations).length) :=
  ⟨by decide, C6_chunking c6Aln ("AGT".data) ("AT".data) 2 (by decide)⟩

/-- C9: the reverse-complement subcommand reverse-complements each fragment
individually, reverses the fragment order, and joins with a single space;
for a single fragment the result is exactly its reverse complement; and the
result differs from reverse-complementing the concatenation of the
fragments (the concrete pair is the repository's own
`test_reverse_complement_with_pairwise_cruft` fixture). -/
theorem C9_reverse_complement_structure :
    (∀ s : List Char, build_reverse_complement [s] = revcomp s) ∧
    (∀ s t : List Char,
      build_reverse_complement [s, t] = revcomp t ++ ' ' :: revcomp s) ∧
    build_reverse_complement [("GATT".data), ("ACA-TTGA".data)]
      = ("TCAA-TGT AATC".data) ∧
    build_reverse_complement [("GATT".data), ("ACA-TTGA".data)]
      ≠ revcomp (("GATT".data) ++ ("ACA-TTGA".data)) := by
  refine ⟨fun s => rfl, fun s t => ?_, by decide, by decide⟩
  simp [build_reverse_complement, joinWith]

/-- C10: `compute_gc_content` first concatenates the fragments and strips
every space and dash, then validates the stripped string, failing with the
first character outside the alphabet together with its position in the
joined, stripped string, and computes the GC ratio only when validation
succeeds.  The concrete conjuncts show: the repository's gapped fixture
`["GGG", "GAA-TA"]` is accepted with ratio 1/2; `"GA- X"` is rejected at
stripped position 2 (the character's position in the original input is 4,
and the corresponding message differs). -/
theorem C10_gc_validation :
    (∀ seqs : List (List Char),
      compute_gc_content seqs =
        match firstInvalid (strip_gaps seqs.flatten) with
        | none => .ok (rustbio_gc_content (strip_gaps seqs.flatten))
        | some (c, i) => .error (invalidBaseMsg c i)) ∧
    compute_gc_content [("GGG".data), ("GAA-TA".data)] = .ok (1 / 2) ∧
    compute_gc_content [("GA- X".data)] = .error (invalidBaseMsg 'X' 2) ∧
    invalidBaseMsg 'X' 2 ≠ invalidBaseMsg 'X' 4 := by
  refine ⟨?_, ?_, by rfl, by decide⟩
  · intro seqs
    show (match confirmGo 0 (strip_gaps seqs.flatten) with
      | Except.error e => Except.error e
      | Except.ok _ => Except.ok (rustbio_gc_content (strip_gaps seqs.flatten))) = _
    rw [confirmGo_eq_firstInvalid (strip_gaps seqs.flatten) 0]
    cases hfi : firstInvalid (strip_gaps seqs.flatten) with
    | none => rfl
    | some p =>
        obtain ⟨c, j⟩ := p
        show Except.error (invalidBaseMsg c (0 + j)) = Except.error (invalidBaseMsg c j)
        rw [Nat.zero_add]
  · have h1 : compute_gc_content [("GGG".data), ("GAA-TA".data)]
        = .ok (rustbio_gc_content ("GGGGAATA".data)) := rfl
    rw [h1]
    have hc : (("GGGGAATA".data).countP
        (fun c => c = 'G' || c = 'g' || c = 'C' || c = 'c')) = 4 := by decide
    have hl : ("GGGGAATA".data).length = 8 := by decide
    unfold rustbio_gc_content
    rw [hc, hl]
    norm_num

/-- C8: when a pairwise subcommand receives a sequence list whose length is
not exactly two, `pairwise` returns the invalid-count error with no alignment
output, and the process prints a single diagnostic line to standard error
prefixed with the application error prefix and exits with code 47. -/
theorem C8_invalid_sequence_count (align : List Char → List Char → Alignment)
    (seqs : List (List Char)) (opts : DisplayOptions) (h : seqs.length ≠ 2) :
    pairwise align seqs opts = .error invalidCountMsg ∧
    finish (pairwise align seqs opts)
      = { exit_code := 47, stdout := [], stderr := abortLine invalidCountMsg } ∧
    ("biotools error: ".data) <+: abortLine invalidCountMsg ∧
    '\n' ∉ ("biotools error: ".data ++ ("Error: ".data ++ invalidCountMsg)) := by
  have h1 : pairwise align seqs opts = .error invalidCountMsg := by
    unfold pairwise
    rw [if_pos h]
  refine ⟨h1, ?_, by decide, by decide⟩
  rw [h1]
  rfl

/-- Witness for C8 at a concrete one-element sequence list. -/
theorem C8_invalid_sequence_count_witness :
    ([("ACGT".data)] : List (List Char)).length ≠ 2 ∧
    (pairwise c8Align [("ACGT".data)] c2Opts = .error invalidCountMsg ∧
     finish (pairwise c8Align [("ACGT".data)] c2Opts)
       = { exit_code := 47, stdout := [], stderr := abortLine invalidCountMsg } ∧
     ("biotools error: ".data) <+: abortLine invalidCountMsg ∧
     '\n' ∉ ("biotools error: ".data ++ ("Error: ".data ++ invalidCountMsg))) :=
  ⟨by decide, C8_invalid_sequence_count c8Align [("ACGT".data)] c2Opts (by decide)⟩

/-- Unfolding of `pairwise` on a well-formed two-sequence input. -/
theorem pairwise_pair (align : List Char → List Char → Alignment)
    (a b : List Char) (opts : DisplayOptions) :
    pairwise align [a, b] opts =
      if opts.try_rc then
        if (align a b).score ≥ (align (revcomp a) b).score then
          .ok (render (align a b) a b opts false)
        else .ok (render (align (revcomp a) b) (revcomp a) b opts true)
      else .ok (render (align a b) a b opts false) := rfl

/-- C2: with try-reverse-complement enabled, `pairwise` runs the aligner on
the query and on its reverse complement against the reference; the forward
result (forward query, no orientation flag) is returned whenever the forward
score is greater than or equal to the reverse-complement score — ties keep
forward — and the reverse-complement result (reverse-complemented query,
orientation flag set) is returned exactly when its score is strictly
greater. -/
theorem C2_orientation_selection (align : List Char → List Char → Alignment)
    (a b : List Char) (opts : DisplayOptions) (htry : opts.try_rc = true) :
    ((align (revcomp a) b).score ≤ (align a b).score →
      pairwise align [a, b] opts = .ok (render (align a b) a b opts false)) ∧
    ((align a b).score < (align (revcomp a) b).score →
      pairwise align [a, b] opts
        = .ok (render (align (revcomp a) b) (revcomp a) b opts true)) := by
  constructor
  · intro h
    rw [pairwise_pair, htry, if_pos rfl, if_pos h]
  · intro h
    rw [pairwise_pair, htry, if_pos rfl, if_neg (not_le.mpr h)]

/-- Witness for C2 at a constructed equal-score fixture: the scores tie, the
forward orientation is kept, and no orientation flag is set. -/
theorem C2_orientation_selection_witness :
    c2Opts.try_rc = true ∧
    pairwise c2Align [("AA".data), ("TT".data)] c2Opts
      = .ok (render c2AlnF ("AA".data) ("TT".data) c2Opts false) :=
  ⟨rfl,
   (C2_orientation_selection c2Align ("AA".data) ("TT".data) c2Opts rfl).1 (by decide)⟩

/-- C1 counterexample: a reverse-complement-selected rendering with
coordinates shown whose output contains no `RC` marker at all — the claim
asserts the literal marker ` RC` follows the query end coordinate, but the
output does not even contain the character `R` (the reverse-complement test
of the repository itself expects the marker-free output). -/
theorem C1_counterexample :
    (c1Align ("AA".data) ("TT".data)).score
        < (c1Align (revcomp ("AA".data)) ("TT".data)).score ∧
    c1Opts.hide_coords = false ∧
    pairwise c1Align [("AA".data), ("TT".data)] c1Opts
      = .ok ("2 TT 1\n  ||\n1 TT 2".data) ∧
    'R' ∉ ("2 TT 1\n  ||\n1 TT 2".data) := by
  refine ⟨by decide, rfl, ?_, by decide⟩
  rfl

/-- C1 (amended): no `RC` marker is ever emitted, in either orientation —
whenever the row strings themselves are free of the character `R`, the
rendered output is free of `R` and in particular never contains the
substring ` RC`; the reverse-complement orientation is visible only through
the inverted query coordinates. -/
theorem C1_no_rc_marker (display_lines : List AlignmentDisplayLine)
    (hide_coords : Bool) (final_a_end : Nat) (a_is_rc use_0 : Bool)
    (h : ∀ l ∈ display_lines,
      'R' ∉ l.a_alignment ∧ 'R' ∉ l.b_alignment ∧ 'R' ∉ l.alignment_string) :
    'R' ∉ format_display_lines display_lines hide_coords final_a_end a_is_rc use_0 ∧
    ¬ ((' ' :: 'R' :: 'C' :: []) <:+:
        format_display_lines display_lines hide_coords final_a_end a_is_rc use_0) := by
  have hR := not_R_format display_lines hide_coords final_a_end a_is_rc use_0 h
  refine ⟨hR, ?_⟩
  intro hinf
  obtain ⟨s, t, hst⟩ := hinf
  apply hR
  rw [← hst]
  simp

/-- Witness for the amended C1 at the reverse-complement-selected fixture. -/
theorem C1_no_rc_marker_witness :
    (∀ l ∈ [c1Line],
      'R' ∉ l.a_alignment ∧ 'R' ∉ l.b_alignment ∧ 'R' ∉ l.alignment_string) ∧
    ('R' ∉ format_display_lines [c1Line] false 2 true false ∧
     ¬ ((' ' :: 'R' :: 'C' :: []) <:+:
         format_display_lines [c1Line] false 2 true false)) :=
  ⟨by decide, C1_no_rc_marker [c1Line] false 2 true false (by decide)⟩

/-- C3 counterexample: a reverse-complement-selected local-style alignment
whose trace stops one base short of the end of the query.  The original query
`AAA` has total length `L = 3`, but the rendered coordinates are computed
from the final query cursor 2: the display line with raw range [1, 2) is
shown as `1 T 1`, whereas the claim's formulas with `L = 3` predict start
`3 - 1 = 2` and end `3 - 2 + 1 = 2`. -/
theorem C3_counterexample :
    (("AAA".data) : List Char).length = 3 ∧
    (c3Align ("AAA".data) ("AT".data)).score
      < (c3Align (revcomp ("AAA".data)) ("AT".data)).score ∧
    pairwise c3Align [("AAA".data), ("AT".data)] c3Opts
      = .ok ("1 T 1\n  |\n2 T 2".data) ∧
    make_display_lines c3AlnR ("TTT".data) ("AT".data) c3Opts.line_width
      = ([c3Line], 2) ∧
    ((calculate_formatted_coordinates c3Line 2 true false).1,
     (calculate_formatted_coordinates c3Line 2 true false).2.1)
      ≠ spec_rc_display_coords 3 c3Line.a_start c3Line.a_end false := by
  refine ⟨rfl, by decide, ?_, by decide, by decide⟩
  rfl

/-- C3 (amended): the displayed query coordinates of a reverse-complemented
line invert through the final query cursor E returned by
`make_display_lines` — which equals the trace's query start plus the number
of query-consuming operations, and coincides with the total original query
length only when the trace consumes the query through its end — as
`display_start = E - raw_start` (used as-is in 1-based mode, no +1 shift)
and `display_end = E - raw_end + 1`, with a further -1 on the end in
zero-based mode. -/
theorem C3_rc_coordinates (alignment : Alignment) (a_seq b_seq : List Char)
    (line_width : Nat) (zb : Bool) (hw : 0 < line_width) :
    (make_display_lines alignment a_seq b_seq line_width).2
      = alignment.xstart + queryConsumed alignment.operations ∧
    (∀ line ∈ (make_display_lines alignment a_seq b_seq line_width).1,
      line.a_start ≤ line.a_end ∧
      line.a_end ≤ (make_display_lines alignment a_seq b_seq line_width).2 ∧
      (calculate_formatted_coordinates line
          (make_display_lines alignment a_seq b_seq line_width).2 true zb).1
        = (make_display_lines alignment a_seq b_seq line_width).2 - line.a_start ∧
      (calculate_formatted_coordinates line
          (make_display_lines alignment a_seq b_seq line_width).2 true zb).2.1
        = (if zb
           then (make_display_lines alignment a_seq b_seq line_width).2 - line.a_end
           else (make_display_lines alignment a_seq b_seq line_width).2
             - line.a_end + 1)) := by
  constructor
  · show (mkLinesGo a_seq b_seq alignment.xstart alignment.ystart
        (chunks line_width alignment.operations)).2 = _
    rw [mkLinesGo_fin, chunks_flatten line_width hw]
  · intro line hline
    obtain ⟨h1, h2⟩ := mkLinesGo_bounds a_seq b_seq
      (chunks line_width alignment.operations) alignment.xstart alignment.ystart
      line hline
    refine ⟨h1, h2, ?_, ?_⟩
    · cases zb <;> simp [calculate_formatted_coordinates]
    · cases zb <;> simp [calculate_formatted_coordinates]

/-- Witness for the amended C3 at the partial-consumption fixture. -/
theorem C3_rc_coordinates_witness :
    0 < 60 ∧
    ((make_display_lines c3AlnR ("TTT".data) ("AT".data) 60).2
       = c3AlnR.xstart + queryConsumed c3AlnR.operations ∧
     (∀ line ∈ (make_display_lines c3AlnR ("TTT".data) ("AT".data) 60).1,
       line.a_start ≤ line.a_end ∧
       line.a_end ≤ (make_display_lines c3AlnR ("TTT".data) ("AT".data) 60).2 ∧
       (calculate_formatted_coordinates line
           (make_display_lines c3AlnR ("TTT".data) ("AT".data) 60).2 true false).1
         = (make_display_lines c3AlnR ("TTT".data) ("AT".data) 60).2 - line.a_start ∧
       (calculate_formatted_coordinates line
           (make_display_lines c3AlnR ("TTT".data) ("AT".data) 60).2 true false).2.1
         = (if false
            then (make_display_lines c3AlnR ("TTT".data) ("AT".data) 60).2 - line.a_end
            else (make_display_lines c3AlnR ("TTT".data) ("AT".data) 60).2
              - line.a_end + 1))) :=
  ⟨by decide, C3_rc_coordinates c3AlnR ("TTT".data) ("AT".data) 60 false (by decide)⟩

/-- C7 counterexample: with displayed start coordinates 3, 2, 10 and 9 the
padding width is 2, and the start coordinate 3 is printed as a space followed
by the digit (left padding, right alignment), not as the digit followed by a
space that right-padding would produce: the output does not start with the
two characters of the right-padded token. -/
theorem C7_counterexample :
    format_display_lines [c7Line1, c7Line2] false 0 false true
      = (" 3 GT 5\n   ||\n 2 GT 4\n\n10 AC 12\n   ||\n 9 AC 11".data) ∧
    (format_display_lines [c7Line1, c7Line2] false 0 false true).take 2
      = [' ', '3'] ∧
    ¬ (('3' :: ' ' :: []) <+:
        format_display_lines [c7Line1, c7Line2] false 0 false true) := by
  refine ⟨?_, by decide, by decide⟩
  rfl

/-- C7 (amended): with coordinates shown, the padding width equals the
maximum digit-width over all displayed start coordinates (query and reference
starts across all lines), every printed start coordinate is padded with
spaces on the left (right-aligned) to exactly that width — the decimal digits
are a suffix of the printed token, whose length is exactly the width — and
end coordinates are printed unpadded (each reference row ends with a space
followed by the bare decimal end coordinate; the query end is likewise bare
in the rendered row equation). -/
theorem C7_padding (display_lines : List AlignmentDisplayLine) (final_a_end : Nat)
    (a_is_rc use_0 : Bool) :
    display_width display_lines final_a_end a_is_rc use_0
      = spec_max_start_digit_width display_lines final_a_end a_is_rc use_0 ∧
    format_display_lines display_lines false final_a_end a_is_rc use_0
      = joinWith ['\n', '\n'] (display_lines.map
          (render_block (display_width display_lines final_a_end a_is_rc use_0)
            final_a_end a_is_rc use_0)) ∧
    (∀ line ∈ display_lines,
      (padLeft (display_width display_lines final_a_end a_is_rc use_0)
          (natRepr (calculate_formatted_coordinates line final_a_end a_is_rc
            use_0).1)).length
        = display_width display_lines final_a_end a_is_rc use_0 ∧
      natRepr (calculate_formatted_coordinates line final_a_end a_is_rc use_0).1
        <:+ padLeft (display_width display_lines final_a_end a_is_rc use_0)
          (natRepr (calculate_formatted_coordinates line final_a_end a_is_rc
            use_0).1) ∧
      (padLeft (display_width display_lines final_a_end a_is_rc use_0)
          (natRepr (calculate_formatted_coordinates line final_a_end a_is_rc
            use_0).2.2)).length
        = display_width display_lines final_a_end a_is_rc use_0 ∧
      natRepr (calculate_formatted_coordinates line final_a_end a_is_rc use_0).2.2
        <:+ padLeft (display_width display_lines final_a_end a_is_rc use_0)
          (natRepr (calculate_formatted_coordinates line final_a_end a_is_rc
            use_0).2.2) ∧
      (' ' :: natRepr line.b_end)
        <:+ render_block (display_width display_lines final_a_end a_is_rc use_0)
          final_a_end a_is_rc use_0 line) := by
  refine ⟨display_width_eq_spec display_lines final_a_end a_is_rc use_0, rfl, ?_⟩
  intro line hline
  have hfold : max (calculate_formatted_coordinates line final_a_end a_is_rc use_0).1
      (calculate_formatted_coordinates line final_a_end a_is_rc use_0).2.2
      ≤ display_lines.foldl (fun m l => max m
          (max (calculate_formatted_coordinates l final_a_end a_is_rc use_0).1
               (calculate_formatted_coordinates l final_a_end a_is_rc use_0).2.2)) 0 :=
    mem_le_foldl_max
      (fun l => max (calculate_formatted_coordinates l final_a_end a_is_rc use_0).1
        (calculate_formatted_coordinates l final_a_end a_is_rc use_0).2.2)
      display_lines 0 line hline
  have h1le : (natRepr (calculate_formatted_coordinates line final_a_end a_is_rc
      use_0).1).length ≤ display_width display_lines final_a_end a_is_rc use_0 :=
    natRepr_length_mono (le_trans (Nat.le_max_left _ _) hfold)
  have h2le : (natRepr (calculate_formatted_coordinates line final_a_end a_is_rc
      use_0).2.2).length ≤ display_width display_lines final_a_end a_is_rc use_0 :=
    natRepr_length_mono (le_trans (Nat.le_max_right _ _) hfold)
  refine ⟨padLeft_length _ _ h1le, padLeft_suffix _ _,
    padLeft_length _ _ h2le, padLeft_suffix _ _, ?_⟩
  refine ⟨padLeft (display_width display_lines final_a_end a_is_rc use_0)
      (natRepr (calculate_formatted_coordinates line final_a_end a_is_rc use_0).1)
      ++ ' ' :: line.a_alignment
      ++ ' ' :: natRepr (calculate_formatted_coordinates line final_a_end a_is_rc
          use_0).2.1
      ++ '\n' :: (padLeft (display_width display_lines final_a_end a_is_rc use_0) []
          ++ ' ' :: line.alignment_string)
      ++ '\n' :: (padLeft (display_width display_lines final_a_end a_is_rc use_0)
          (natRepr (calculate_formatted_coordinates line final_a_end a_is_rc
            use_0).2.2)
          ++ ' ' :: line.b_alignment), ?_⟩
  simp [render_block, List.append_assoc]

/-- Witness for the amended C7 at the two-line fixture with starts 3, 2, 10
and 9. -/
theorem C7_padding_witness :
    display_width [c7Line1, c7Line2] 0 false true
      = spec_max_start_digit_width [c7Line1, c7Line2] 0 false true ∧
    format_display_lines [c7Line1, c7Line2] false 0 false true
      = joinWith ['\n', '\n'] ([c7Line1, c7Line2].map
          (render_block (display_width [c7Line1, c7Line2] 0 false true)
            0 false true)) ∧
    (∀ line ∈ [c7Line1, c7Line2],
      (padLeft (display_width [c7Line1, c7Line2] 0 false true)
          (natRepr (calculate_formatted_coordinates line 0 false true).1)).length
        = display_width [c7Line1, c7Line2] 0 false true ∧
      natRepr (calculate_formatted_coordinates line 0 false true).1
        <:+ padLeft (display_width [c7Line1, c7Line2] 0 false true)
          (natRepr (calculate_formatted_coordinates line 0 false true).1) ∧
      (padLeft (display_width [c7Line1, c7Line2] 0 false true)
          (natRepr (calculate_formatted_coordinates line 0 false true).2.2)).length
        = display_width [c7Line1, c7Line2] 0 false true ∧
      natRepr (calculate_formatted_coordinates line 0 false true).2.2
        <:+ padLeft (display_width [c7Line1, c7Line2] 0 false true)
          (natRepr (calculate_formatted_coordinates line 0 false true).2.2) ∧
      (' ' :: natRepr line.b_end)
        <:+ render_block (display_width [c7Line1, c7Line2] 0 false true)
          0 false true line) :=
  C7_padding [c7Line1, c7Line2] 0 false true

end Biotools
